import Mathlib

/-!
A shallow embedding of the menu CRUD service in `server.js`.

The repository ships two complete Express applications in one source file;
we call them variant 1 (the first listing: five seed items, `length + 1`
id assignment, no input sanitization, raw validation-error bodies) and
variant 2 (the second listing: eight seed items, `Math.max(ids) + 1` id
assignment, trim/escape sanitization, and the
`{status: "Validation Error", errors: [{field, message}]}` error body).
Shared plumbing (JSON values, JS string/number primitives, association-list
objects) comes first, then each variant in its own namespace, then the
theorems about the claims.
-/

/-- JSON-ish runtime values.  `nan` models the IEEE NaN produced by
`parseInt` and `Math.max` on non-numeric input; JS `===` on NaN is always
false.  Numbers are modelled as rationals (every numeric literal in the
program is an exact decimal fraction). -/
inductive JValue where
  | null
  | nan
  | bool (b : Bool)
  | num (q : ℚ)
  | str (s : String)
  | arr (elems : List JValue)
  | obj (fields : List (String × JValue))

/-- A JS object as it comes out of `JSON.parse`: an ordered list of
key/value pairs with pairwise-distinct keys (JSON parsing deduplicates
keys, last occurrence wins). -/
abbrev Obj := List (String × JValue)

/-- Property read `o.k`: the value at the first occurrence of key `k`,
`none` standing for JS `undefined`. -/
def getField : Obj → String → Option JValue
  | [], _ => none
  | (k, v) :: rest, key => if k = key then some v else getField rest key

/-- Property write `o.k = v`: replace the value at an existing key in
place, otherwise append the key (JS object assignment semantics). -/
def setField : Obj → String → JValue → Obj
  | [], key, v => [(key, v)]
  | (k, w) :: rest, key, v =>
      if k = key then (k, v) :: rest else (k, w) :: setField rest key v

/-- Object spread `{...target, ...src}` restricted to the shape the routes
use: fold the source's properties into the target with JS assignment. -/
def spreadInto (target : Obj) (src : Obj) : Obj :=
  src.foldl (fun acc kv => setField acc kv.1 kv.2) target

/-- Property read on a serialized JSON value (used to inspect response
bodies). -/
def jGet (v : JValue) (k : String) : Option JValue :=
  match v with
  | .obj o => getField o k
  | _ => none

/-- `String.prototype.trim`: strip leading and trailing whitespace. -/
def trimJS (s : String) : String :=
  ⟨((s.data.dropWhile Char.isWhitespace).reverse.dropWhile Char.isWhitespace).reverse⟩

/-- validator.js `escape`: HTML-escape the characters `& " ' < > / \` and
the backquote.  The library applies a chain of global replaces starting
with `&`, which is equivalent to this single character map because no
replacement string contains a character that a later replace rewrites. -/
def escapeChar (c : Char) : String :=
  if c = '&' then "&amp;"
  else if c = '"' then "&quot;"
  else if c = Char.ofNat 39 then "&#x27;"
  else if c = '<' then "&lt;"
  else if c = '>' then "&gt;"
  else if c = '/' then "&#x2F;"
  else if c = Char.ofNat 92 then "&#x5C;"
  else if c = Char.ofNat 96 then "&#96;"
  else String.singleton c

/-- validator.js `escape` over a whole string. -/
def escapeJS (s : String) : String :=
  String.join (s.data.map escapeChar)

/-- Numeric value of a list of decimal digit characters. -/
def digitsVal (cs : List Char) : ℕ :=
  cs.foldl (fun a c => 10 * a + (c.toNat - 48)) 0

/-- JS `parseInt(s, 10)`: skip leading whitespace, read an optional sign
and a maximal run of decimal digits; no digits means NaN, trailing
non-digit characters are ignored. -/
def parseIntJS (s : String) : JValue :=
  match s.data.dropWhile (fun c => c.isWhitespace) with
  | [] => .nan
  | c :: rest =>
      if c = '-' then
        match rest.takeWhile (fun d => d.isDigit) with
        | [] => .nan
        | ds => .num (mkRat (-Int.ofNat (digitsVal ds)) 1)
      else
        match (if c = '+' then rest else c :: rest).takeWhile (fun d => d.isDigit) with
        | [] => .nan
        | ds => .num (mkRat (Int.ofNat (digitsVal ds)) 1)

/-- JS strict equality `===` restricted to the comparisons the routes
perform (`i.id === id` where `id` comes from `parseIntJS`): NaN compares
unequal to everything including itself, values of different types compare
unequal, and arrays/objects compare by reference (never equal here). -/
def jsEq : JValue → JValue → Bool
  | .num a, .num b => a == b
  | .str a, .str b => a == b
  | .bool a, .bool b => a == b
  | .null, .null => true
  | _, _ => false

/-- `i.id === id` where the left side may be `undefined` (a missing
property): `undefined === n` is false for every number `n`. -/
def jsEqO (x : Option JValue) (v : JValue) : Bool :=
  match x with
  | some w => jsEq w v
  | none => false

/-- `q + 1` on JS numbers, written with an explicit normalized
construction because the library's rational addition is sealed against
definitional evaluation; `addOneJS_eq` below proves it is `q + 1`. -/
def addOneJS (q : ℚ) : ℚ :=
  mkRat (q.num + q.den) q.den

/-- `Math.max` of two numbers (neither argument NaN): the larger one. -/
def maxJS (a b : ℚ) : ℚ :=
  if a ≤ b then b else a

/-- `Array.prototype.findIndex` (with `none` standing for `-1`). -/
def findIndexJS (p : Obj → Bool) : List Obj → Option ℕ
  | [] => none
  | o :: rest => if p o then some 0 else (findIndexJS p rest).map (fun n => n + 1)

/-- One express-validator violation as variant 2 reports it:
`{field: err.path, message: err.msg}`. -/
structure FieldError where
  field : String
  message : String
deriving DecidableEq

/-- An HTTP response: status code and JSON body. -/
structure Resp where
  status : ℕ
  body : JValue

/-- `{"error": "Menu item not found"}`. -/
def notFoundBody : JValue := .obj [("error", .str "Menu item not found")]

/-- `{"message": "Successfully deleted"}`. -/
def deletedBody : JValue := .obj [("message", .str "Successfully deleted")]

/-- Is the value a string?  (express-validator `isString`). -/
def isStr (v : Option JValue) : Bool :=
  match v with
  | some (.str _) => true
  | _ => false

/-- Length used by `isLength`.  express-validator stringifies the value
first; the routes below only ever store payloads on which `isString`
already succeeded, and no theorem depends on the length of a non-string
value, so only strings (and the absent field, which stringifies to the
empty string) are modelled. -/
def strLen (v : Option JValue) : ℕ :=
  match v with
  | some (.str s) => s.length
  | _ => 0

/-- The `trim()` sanitizer inside a validation chain: it rewrites the
field's value in `req.body`, so validators later in the chain (and the
route handler) observe the trimmed string.  Non-string values are left
unchanged (no reached handler ever stores one, since `isString` fails). -/
def trimSanV (v : Option JValue) : Option JValue :=
  match v with
  | some (.str s) => some (.str (trimJS s))
  | x => x

/-- `isFloat({gt: 0})`: a number strictly greater than zero. -/
def priceVal (v : Option JValue) : Bool :=
  match v with
  | some (.num q) => decide (0 < q)
  | _ => false

/-- `isIn(['appetizer', 'entree', 'dessert', 'beverage'])`. -/
def categoryVal (v : Option JValue) : Bool :=
  match v with
  | some (.str c) =>
      c == "appetizer" || c == "entree" || c == "dessert" || c == "beverage"
  | _ => false

/-- `isArray({min: 1})`. -/
def ingredientsVal (v : Option JValue) : Bool :=
  match v with
  | some (.arr xs) => decide (1 ≤ xs.length)
  | _ => false

/-- `optional().isBoolean()`: no violation when the field is absent,
otherwise the value must be a boolean. -/
def availableVal (v : Option JValue) : Bool :=
  match v with
  | none => true
  | some (.bool _) => true
  | some _ => false

namespace V2

/-! ### Variant 2: the second application in `server.js` -/

/-- Is the (trimmed) `name` value a string?  First validator of the
`body('name')` chain; the `trim()` sanitizer precedes it. -/
def nameStrOK (b : Obj) : Bool := isStr (trimSanV (getField b "name"))

/-- `isLength({min: 3})` on the trimmed `name`; the `escape()` sanitizer
comes only after this check, so escaping never influences it. -/
def nameLenOK (b : Obj) : Bool := decide (3 ≤ strLen (trimSanV (getField b "name")))

/-- Is the (trimmed) `description` value a string? -/
def descStrOK (b : Obj) : Bool := isStr (trimSanV (getField b "description"))

/-- `isLength({min: 10})` on the trimmed `description`. -/
def descLenOK (b : Obj) : Bool := decide (10 ≤ strLen (trimSanV (getField b "description")))

/-- `body('price').isFloat({gt: 0})`. -/
def priceOK (b : Obj) : Bool := priceVal (getField b "price")

/-- `body('category').isIn([...])`. -/
def catOK (b : Obj) : Bool := categoryVal (getField b "category")

/-- `body('ingredients').isArray({min: 1})`. -/
def ingrOK (b : Obj) : Bool := ingredientsVal (getField b "ingredients")

/-- `body('available').optional().isBoolean()`. -/
def availOK (b : Obj) : Bool := availableVal (getField b "available")

/-- A failed validator contributes one error entry; a passing one
contributes none. -/
def errIf (c : Bool) (e : FieldError) : List FieldError :=
  if c then [] else [e]

/-- All violations collected by the variant-2 `menuValidation` chains, in
chain registration order, one entry per failed validator (express-validator
does not stop at the first failure).  `withMessage` customizes the message
of the validator it follows; `isString` failures keep the library default
`Invalid value`. -/
def validate (b : Obj) : List FieldError :=
  errIf (nameStrOK b) ⟨"name", "Invalid value"⟩ ++
  errIf (nameLenOK b) ⟨"name", "Name must be at least 3 characters"⟩ ++
  errIf (descStrOK b) ⟨"description", "Invalid value"⟩ ++
  errIf (descLenOK b) ⟨"description", "Description must be at least 10 characters"⟩ ++
  errIf (priceOK b) ⟨"price", "Price must be a positive number"⟩ ++
  errIf (catOK b) ⟨"category", "Invalid category"⟩ ++
  errIf (ingrOK b) ⟨"ingredients", "At least one ingredient is required"⟩ ++
  errIf (availOK b) ⟨"available", "Available must be true or false"⟩

/-- One entry of the variant-2 error array:
`errors.array().map(err => ({field: err.path, message: err.msg}))`. -/
def fieldErrJson (e : FieldError) : JValue :=
  .obj [("field", .str e.field), ("message", .str e.message)]

/-- The variant-2 400 body:
`{status: "Validation Error", errors: [...]}`. -/
def valErrBody (errs : List FieldError) : JValue :=
  .obj [("status", .str "Validation Error"), ("errors", .arr (errs.map fieldErrJson))]

/-- Persist one chain's sanitizers into `req.body`: the value of a string
field becomes its trimmed, escaped form.  Fields that are absent or not
strings are left alone — `isString` failed for those, so no handler that
reads the sanitized body is ever reached. -/
def sanitizeField (b : Obj) (k : String) : Obj :=
  match getField b k with
  | some (.str s) => setField b k (.str (escapeJS (trimJS s)))
  | _ => b

/-- `req.body` as the route handlers observe it: the `name` and
`description` chains each ran `trim()` and `escape()`. -/
def sanitize (b : Obj) : Obj :=
  sanitizeField (sanitizeField b "name") "description"

/-- The eight seed menu items of variant 2. -/
def seedItems : List Obj :=
  [ [("id", .num 1), ("name", .str "Classic Burger"),
     ("description", .str "Juicy beef patty with fresh toppings"),
     ("price", .num (mkRat 1299 100)), ("category", .str "entree"),
     ("ingredients", .arr [.str "beef", .str "lettuce", .str "tomato", .str "cheese"]),
     ("available", .bool true)],
    [("id", .num 2), ("name", .str "Chicken Caesar Salad"),
     ("description", .str "Crisp romaine lettuce with grilled chicken"),
     ("price", .num (mkRat 1150 100)), ("category", .str "entree"),
     ("ingredients", .arr [.str "chicken", .str "romaine", .str "parmesan", .str "croutons"]),
     ("available", .bool true)],
    [("id", .num 3), ("name", .str "Mozzarella Sticks"),
     ("description", .str "Golden fried mozzarella with marinara sauce"),
     ("price", .num (mkRat 899 100)), ("category", .str "appetizer"),
     ("ingredients", .arr [.str "mozzarella", .str "breading", .str "marinara"]),
     ("available", .bool true)],
    [("id", .num 4), ("name", .str "Chocolate Lava Cake"),
     ("description", .str "Warm chocolate cake with molten center"),
     ("price", .num (mkRat 799 100)), ("category", .str "dessert"),
     ("ingredients", .arr [.str "chocolate", .str "flour", .str "eggs", .str "butter"]),
     ("available", .bool true)],
    [("id", .num 5), ("name", .str "Fresh Lemonade"),
     ("description", .str "Refreshing homemade lemonade"),
     ("price", .num (mkRat 399 100)), ("category", .str "beverage"),
     ("ingredients", .arr [.str "lemon juice", .str "water", .str "sugar"]),
     ("available", .bool true)],
    [("id", .num 6), ("name", .str "Apple Pie"),
     ("description", .str "Classic apple pie with cinnamon spice"),
     ("price", .num (mkRat 450 100)), ("category", .str "dessert"),
     ("ingredients", .arr [.str "apples", .str "cinnamon", .str "flour", .str "sugar"]),
     ("available", .bool true)],
    [("id", .num 7), ("name", .str "Chicken Over Rice"),
     ("description", .str "Grilled chicken served over seasoned yellow rice with white sauce"),
     ("price", .num (mkRat 1050 100)), ("category", .str "entree"),
     ("ingredients", .arr [.str "Chicken", .str "Rice", .str "White Sauce", .str "Pita"]),
     ("available", .bool true)],
    [("id", .num 8), ("name", .str "Fish over Rice"),
     ("description", .str "Grilled or fried fish served over white and hot sauces"),
     ("price", .num (mkRat 1800 100)), ("category", .str "entree"),
     ("ingredients", .arr [.str "Fry Fish", .str "Rice", .str "Shrimp", .str "lettuces", .str "white sauces"]),
     ("available", .bool true)] ]

/-- Does the item carry a JS-number `id`? -/
def isNumId (o : Obj) : Bool :=
  match getField o "id" with
  | some (.num _) => true
  | _ => false

/-- The numeric values among `menuItems.map(i => i.id)`, in store order. -/
def qIds (s : List Obj) : List ℚ :=
  s.filterMap (fun o =>
    match getField o "id" with
    | some (.num q) => some q
    | _ => none)

/-- `Math.max(...menuItems.map(i => i.id))`: NaN as soon as some argument
is not a JS number (`ToNumber` coercion of exotic arguments is not
modelled: no state this development reasons about stores a non-number
id), otherwise the maximum.  `Math.max()` of no arguments is `-Infinity`;
that case sits behind the route's `length > 0` guard and is mapped to
`nan` here. -/
def jsMaxIds (s : List Obj) : JValue :=
  if s.all isNumId then
    match qIds s with
    | [] => .nan
    | q :: rest => .num (rest.foldl maxJS q)
  else .nan

/-- The id the variant-2 POST computes:
`menuItems.length > 0 ? Math.max(...menuItems.map(i => i.id)) + 1 : 1`
(NaN propagates through `+ 1`). -/
def newId (s : List Obj) : JValue :=
  if 0 < s.length then
    match jsMaxIds s with
    | .num m => .num (addOneJS m)
    | _ => .nan
  else .num 1

/-- The object literal the variant-2 POST builds:
`{id: <newId>, ...req.body, available: req.body.available !== undefined ?
req.body.available : true}`, where `req.body` is the sanitized body.
A body `id` property arrives after the computed `id` in the spread and
therefore overwrites it. -/
def mkNewItem (s : List Obj) (b : Obj) : Obj :=
  setField (spreadInto [("id", newId s)] (sanitize b)) "available"
    ((getField (sanitize b) "available").getD (.bool true))

/-- POST `/api/menu` of variant 2 (validation middleware included):
returns the response and the store after the request. -/
def postMenu (s : List Obj) (b : Obj) : Resp × List Obj :=
  if validate b ≠ [] then (⟨400, valErrBody (validate b)⟩, s)
  else (⟨201, .obj (mkNewItem s b)⟩, s ++ [mkNewItem s b])

/-- GET `/api/menu/:id` of variant 2. -/
def getMenuById (s : List Obj) (seg : String) : Resp :=
  match s.find? (fun i => jsEqO (getField i "id") (parseIntJS seg)) with
  | none => ⟨404, notFoundBody⟩
  | some item => ⟨200, .obj item⟩

/-- The object literal the variant-2 PUT stores: `{id, ...req.body}` with
`id` the parsed path segment and `req.body` the sanitized body.  There is
no `available` default here, and a body `id` property overwrites the path
id. -/
def mkUpdated (pid : JValue) (b : Obj) : Obj :=
  spreadInto [("id", pid)] (sanitize b)

/-- PUT `/api/menu/:id` of variant 2 (validation middleware first, then
the id lookup). -/
def putMenu (s : List Obj) (seg : String) (b : Obj) : Resp × List Obj :=
  if validate b ≠ [] then (⟨400, valErrBody (validate b)⟩, s)
  else
    match findIndexJS (fun i => jsEqO (getField i "id") (parseIntJS seg)) s with
    | none => (⟨404, notFoundBody⟩, s)
    | some ix =>
        (⟨200, .obj (mkUpdated (parseIntJS seg) b)⟩,
         s.set ix (mkUpdated (parseIntJS seg) b))

/-- DELETE `/api/menu/:id` of variant 2 (`splice(index, 1)`). -/
def deleteMenu (s : List Obj) (seg : String) : Resp × List Obj :=
  match findIndexJS (fun i => jsEqO (getField i "id") (parseIntJS seg)) s with
  | none => (⟨404, notFoundBody⟩, s)
  | some ix => (⟨200, deletedBody⟩, s.eraseIdx ix)

/-- One mutating request against the variant-2 store. -/
inductive Req where
  | create (b : Obj)
  | update (seg : String) (b : Obj)
  | remove (seg : String)

/-- The store after one request (the response is discarded). -/
def step (s : List Obj) : Req → List Obj
  | .create b => (postMenu s b).2
  | .update seg b => (putMenu s seg b).2
  | .remove seg => (deleteMenu s seg).2

/-- The store after a sequence of requests starting from the seed. -/
def run (reqs : List Req) : List Obj :=
  reqs.foldl step seedItems


/-- Store well-formedness: every item carries a JS-number id and those id
values are pairwise distinct. -/
def GoodStore (s : List Obj) : Prop :=
  (∀ o ∈ s, isNumId o = true) ∧ (qIds s).Nodup

/-- Does this request's body avoid an `id` property? -/
def reqNoId : Req → Bool
  | .create b => (getField b "id").isNone
  | .update _ b => (getField b "id").isNone
  | .remove _ => true
end V2

namespace V1

/-! ### Variant 1: the first application in `server.js` -/

/-- One express-validator error as `errors.array()` exposes it (the
fields variant 1 serializes directly): offending path, message, and the
field's value (`none` when the field was absent, i.e. `undefined`). -/
structure RawErr where
  path : String
  msg : String
  value : Option JValue

/-- A failed validator contributes one raw error entry. -/
def errIfR (c : Bool) (e : RawErr) : List RawErr :=
  if c then [] else [e]

/-- All violations collected by the variant-1 `menuValidation` chains, in
chain registration order.  Variant 1 has no sanitizers, so every check
runs on the raw body value; `withMessage` customizes the last validator
of each chain, `isString`/`isBoolean` failures keep the library default
`Invalid value`. -/
def validate (b : Obj) : List RawErr :=
  errIfR (isStr (getField b "name")) ⟨"name", "Invalid value", getField b "name"⟩ ++
  errIfR (decide (3 ≤ strLen (getField b "name")))
    ⟨"name", "Name must be at least 3 chars", getField b "name"⟩ ++
  errIfR (isStr (getField b "description")) ⟨"description", "Invalid value", getField b "description"⟩ ++
  errIfR (decide (10 ≤ strLen (getField b "description")))
    ⟨"description", "Description must be at least 10 chars", getField b "description"⟩ ++
  errIfR (priceVal (getField b "price"))
    ⟨"price", "Price must be greater than 0", getField b "price"⟩ ++
  errIfR (categoryVal (getField b "category"))
    ⟨"category", "Invalid category", getField b "category"⟩ ++
  errIfR (ingredientsVal (getField b "ingredients"))
    ⟨"ingredients", "At least one ingredient required", getField b "ingredients"⟩ ++
  errIfR (availableVal (getField b "available"))
    ⟨"available", "Invalid value", getField b "available"⟩

/-- One serialized express-validator error object
`{type, value, msg, path, location}`; `JSON.stringify` drops the `value`
key when the value is `undefined`. -/
def rawErrJson (e : RawErr) : JValue :=
  .obj ([("type", .str "field")] ++
    (match e.value with
     | some v => [("value", v)]
     | none => []) ++
    [("msg", .str e.msg), ("path", .str e.path), ("location", .str "body")])

/-- The variant-1 400 body: `{errors: errors.array()}` — no `status`
property, raw error objects. -/
def valErrBody (errs : List RawErr) : JValue :=
  .obj [("errors", .arr (errs.map rawErrJson))]

/-- The five seed menu items of variant 1 (they carry no `description`
and no `ingredients`). -/
def seedItems : List Obj :=
  [ [("id", .num 1), ("name", .str "Classic Burger"),
     ("price", .num (mkRat 1299 100)), ("category", .str "entree"), ("available", .bool true)],
    [("id", .num 2), ("name", .str "Chicken Caesar Salad"),
     ("price", .num (mkRat 1150 100)), ("category", .str "entree"), ("available", .bool true)],
    [("id", .num 3), ("name", .str "Mozzarella Sticks"),
     ("price", .num (mkRat 899 100)), ("category", .str "appetizer"), ("available", .bool true)],
    [("id", .num 4), ("name", .str "Chocolate Lava Cake"),
     ("price", .num (mkRat 799 100)), ("category", .str "dessert"), ("available", .bool true)],
    [("id", .num 5), ("name", .str "Fresh Lemonade"),
     ("price", .num (mkRat 399 100)), ("category", .str "beverage"), ("available", .bool true)] ]

/-- `req.body.<k>` in the handler.  Every body the validator accepts has
the five required fields present, so the `.null` default (standing for a
stored JS `undefined`) is never written by a reached handler. -/
def fld (b : Obj) (k : String) : JValue :=
  (getField b k).getD .null

/-- The object literal the variant-1 POST builds: explicit fields, id
assigned as `menuItems.length + 1`, `available` defaulted to `true`. -/
def mkNewItem (s : List Obj) (b : Obj) : Obj :=
  [("id", .num (mkRat (Int.ofNat (s.length + 1)) 1)),
   ("name", fld b "name"),
   ("description", fld b "description"),
   ("price", fld b "price"),
   ("category", fld b "category"),
   ("ingredients", fld b "ingredients"),
   ("available", (getField b "available").getD (.bool true))]

/-- POST `/api/menu` of variant 1 (validation middleware included;
`!errors.isEmpty()` guards the 400). -/
def postMenu (s : List Obj) (b : Obj) : Resp × List Obj :=
  if (validate b).isEmpty then (⟨201, .obj (mkNewItem s b)⟩, s ++ [mkNewItem s b])
  else (⟨400, valErrBody (validate b)⟩, s)

/-- DELETE `/api/menu/:id` of variant 1 (`splice(index, 1)`). -/
def deleteMenu (s : List Obj) (seg : String) : Resp × List Obj :=
  match findIndexJS (fun i => jsEqO (getField i "id") (parseIntJS seg)) s with
  | none => (⟨404, notFoundBody⟩, s)
  | some ix => (⟨200, deletedBody⟩, s.eraseIdx ix)

end V1

/-! ### Concrete request payloads used in witnesses and counterexamples -/

/-- The create payload of the specification's concrete scenario:
`{name: "Veggie Wrap", description: "Fresh veggies wrapped in a tortilla",
price: 6.5, category: "entree", ingredients: ["veggies", "tortilla"]}`. -/
def wrapBody : Obj :=
  [("name", .str "Veggie Wrap"),
   ("description", .str "Fresh veggies wrapped in a tortilla"),
   ("price", .num (mkRat 65 10)),
   ("category", .str "entree"),
   ("ingredients", .arr [.str "veggies", .str "tortilla"])]

/-- The empty JSON object: violates every required-field rule. -/
def emptyBody : Obj := []

/-- A payload that passes validation but smuggles in an `id` property
equal to an id already present in the variant-2 seed store. -/
def sneakyBody : Obj :=
  [("id", .num 1),
   ("name", .str "Sneaky Burger"),
   ("description", .str "A burger that reuses an id already in the store"),
   ("price", .num 5),
   ("category", .str "entree"),
   ("ingredients", .arr [.str "beef"])]

/-- A payload whose only violation is a non-positive price. -/
def priceBadBody : Obj :=
  [("name", .str "Valid Name"),
   ("description", .str "A perfectly fine description"),
   ("price", .num (-5)),
   ("category", .str "entree"),
   ("ingredients", .arr [.str "x"])]

/-- A payload whose name has raw length 4 but trimmed length 2. -/
def padBody : Obj :=
  [("name", .str " ab "),
   ("description", .str "A description long enough"),
   ("price", .num 5),
   ("category", .str "entree"),
   ("ingredients", .arr [.str "x"])]

/-- A payload that passes validation but carries an `id` property equal
to seed id 1 and a whitespace-padded name. -/
def dupIdBody : Obj :=
  [("id", .num 1),
   ("name", .str " Padded Wrap "),
   ("description", .str "Fresh veggies wrapped in a tortilla"),
   ("price", .num (mkRat 65 10)),
   ("category", .str "entree"),
   ("ingredients", .arr [.str "veggies"])]

/-- A valid payload with an unvalidated extra property (`spicy`) and an
`id` property. -/
def extraBody : Obj :=
  [("id", .num 999),
   ("spicy", .bool true),
   ("name", .str "Fire Wrap"),
   ("description", .str "A wrap with plenty of hot sauce"),
   ("price", .num 7),
   ("category", .str "entree"),
   ("ingredients", .arr [.str "wrap", .str "hot sauce"])]

/-! ### Properties of the object primitives -/

theorem getField_setField_self (o : Obj) (k : String) (v : JValue) :
    getField (setField o k v) k = some v := by
  induction o with
  | nil => simp [setField, getField]
  | cons kv rest ih =>
    obtain ⟨k1, v1⟩ := kv
    by_cases h : k1 = k
    · simp [setField, getField, h]
    · simp [setField, getField, h, ih]

theorem getField_setField_ne (o : Obj) (k k' : String) (v : JValue) (h : k' ≠ k) :
    getField (setField o k v) k' = getField o k' := by
  induction o with
  | nil => simp [setField, getField, Ne.symm h]
  | cons kv rest ih =>
    obtain ⟨k1, v1⟩ := kv
    by_cases h1 : k1 = k
    · subst h1
      simp [setField, getField, Ne.symm h]
    · by_cases h2 : k1 = k'
      · subst h2
        simp [setField, getField, h1]
      · simp [setField, getField, h1, h2, ih]

theorem keys_setField_of_mem (o : Obj) (k : String) (v w : JValue)
    (h : getField o k = some w) : (setField o k v).map Prod.fst = o.map Prod.fst := by
  induction o with
  | nil => simp [getField] at h
  | cons kv rest ih =>
    obtain ⟨k1, v1⟩ := kv
    by_cases h1 : k1 = k
    · simp [setField, h1]
    · have h2 : getField rest k = some w := by simpa [getField, h1] using h
      simp [setField, h1, ih h2]

theorem getField_eq_none_iff (o : Obj) (k : String) :
    getField o k = none ↔ k ∉ o.map Prod.fst := by
  induction o with
  | nil => simp [getField]
  | cons kv rest ih =>
    obtain ⟨k1, v1⟩ := kv
    by_cases h : k1 = k
    · subst h
      simp [getField]
    · simp [getField, h, ih, Ne.symm h]

theorem getField_spreadInto_of_none (src t : Obj) (k : String)
    (h : getField src k = none) : getField (spreadInto t src) k = getField t k := by
  induction src generalizing t with
  | nil => rfl
  | cons kv rest ih =>
    obtain ⟨k1, v1⟩ := kv
    have h1 : ¬k1 = k := by
      intro hh
      simp [getField, hh] at h
    have h2 : getField rest k = none := by simpa [getField, h1] using h
    show getField (spreadInto (setField t k1 v1) rest) k = getField t k
    rw [ih _ h2]
    exact getField_setField_ne t k1 k v1 (fun hh => h1 hh.symm)

theorem getField_spreadInto_of_some (src : Obj) (t : Obj) (k : String) (v : JValue)
    (hnd : (src.map Prod.fst).Nodup) (h : getField src k = some v) :
    getField (spreadInto t src) k = some v := by
  induction src generalizing t with
  | nil => simp [getField] at h
  | cons kv rest ih =>
    obtain ⟨k1, v1⟩ := kv
    by_cases hk : k1 = k
    · subst hk
      have hv : v1 = v := by simpa [getField] using h
      subst hv
      have hk1 : k1 ∉ rest.map Prod.fst := by simpa using hnd.not_mem
      have hrest : getField rest k1 = none := (getField_eq_none_iff rest k1).mpr hk1
      show getField (spreadInto (setField t k1 v1) rest) k1 = some v1
      rw [getField_spreadInto_of_none rest _ k1 hrest]
      exact getField_setField_self t k1 v1
    · have h2 : getField rest k = some v := by simpa [getField, hk] using h
      show getField (spreadInto (setField t k1 v1) rest) k = some v
      exact ih (setField t k1 v1) hnd.of_cons h2

theorem findIndexJS_eq_none (p : Obj → Bool) (s : List Obj) (h : ∀ o ∈ s, p o = false) :
    findIndexJS p s = none := by
  induction s with
  | nil => rfl
  | cons a rest ih =>
    have ha := h a (by simp)
    have hrest := ih (fun o ho => h o (by simp [ho]))
    simp [findIndexJS, ha, hrest]

theorem findIndexJS_eq_some (p : Obj → Bool) (s : List Obj) (ix : ℕ)
    (h : findIndexJS p s = some ix) : ∃ o, s[ix]? = some o ∧ p o = true := by
  induction s generalizing ix with
  | nil => simp [findIndexJS] at h
  | cons a rest ih =>
    by_cases hp : p a
    · simp [findIndexJS, hp] at h
      exact h ▸ ⟨a, by simp, hp⟩
    · simp only [findIndexJS, hp, if_false, Bool.false_eq_true, Option.map_eq_some'] at h
      obtain ⟨jx, hjx, rfl⟩ := h
      obtain ⟨o, ho, hpo⟩ := ih jx hjx
      exact ⟨o, by simpa using ho, hpo⟩

theorem find?_eq_none_of (p : Obj → Bool) (s : List Obj) (h : ∀ o ∈ s, p o = false) :
    s.find? p = none :=
  List.find?_eq_none.mpr (fun o ho => by simp [h o ho])

theorem filterMap_set_same {α β : Type _} (g : α → Option β) (l : List α) (ix : ℕ) (a b : α)
    (hget : l[ix]? = some a) (heq : g b = g a) :
    (l.set ix b).filterMap g = l.filterMap g := by
  induction l generalizing ix with
  | nil => simp at hget
  | cons x rest ih =>
    cases ix with
    | zero =>
      have hx : x = a := by simpa using hget
      subst hx
      simp [List.filterMap_cons, heq]
    | succ n =>
      have hget2 : rest[n]? = some a := by simpa using hget
      simp [List.filterMap_cons, ih n hget2]

theorem le_maxJS_left (a b : ℚ) : a ≤ maxJS a b := by
  unfold maxJS
  split
  · assumption
  · exact le_refl a

theorem le_maxJS_right (a b : ℚ) : b ≤ maxJS a b := by
  unfold maxJS
  split
  · exact le_refl b
  · exact le_of_not_le (by assumption)

theorem le_foldl_max (a : ℚ) (l : List ℚ) : ∀ x ∈ a :: l, x ≤ l.foldl maxJS a := by
  induction l generalizing a with
  | nil =>
    intro x hx
    simp at hx
    simp [hx]
  | cons b rest ih =>
    intro x hx
    show x ≤ rest.foldl maxJS (maxJS a b)
    have hmem := ih (maxJS a b)
    rcases (by simpa using hx : x = a ∨ x = b ∨ x ∈ rest) with h | h | h
    · subst h
      exact le_trans (le_maxJS_left x b) (hmem (maxJS x b) (by simp))
    · subst h
      exact le_trans (le_maxJS_right a x) (hmem (maxJS a x) (by simp))
    · exact hmem _ (by simp [h])

theorem addOneJS_eq (q : ℚ) : addOneJS q = q + 1 := by
  unfold addOneJS
  rw [Rat.mkRat_eq_div]
  push_cast
  rw [add_div, div_self (by exact_mod_cast q.den_nz : ((q.den : ℚ) ≠ 0)), Rat.num_div_den]

theorem jsEq_num_eq (q : ℚ) (v : JValue) (h : jsEq (.num q) v = true) : v = .num q := by
  cases v <;> simp [jsEq] at h ⊢
  exact h.symm

namespace V2

/-! ### Properties of sanitization, id assignment, and the store invariant -/

theorem getField_sanitizeField_ne (b : Obj) (k k' : String) (h : k' ≠ k) :
    getField (sanitizeField b k) k' = getField b k' := by
  unfold sanitizeField
  rcases hg : getField b k with _ | v
  · rfl
  · cases v <;> first | rfl | exact getField_setField_ne b k k' _ h

theorem getField_sanitizeField_self (b : Obj) (k : String) (s : String)
    (h : getField b k = some (.str s)) :
    getField (sanitizeField b k) k = some (.str (escapeJS (trimJS s))) := by
  unfold sanitizeField
  rw [h]
  exact getField_setField_self b k _

theorem getField_sanitize_other (b : Obj) (k : String) (h1 : k ≠ "name")
    (h2 : k ≠ "description") : getField (sanitize b) k = getField b k := by
  unfold sanitize
  rw [getField_sanitizeField_ne _ _ _ h2, getField_sanitizeField_ne _ _ _ h1]

theorem getField_sanitize_name (b : Obj) (s : String)
    (h : getField b "name" = some (.str s)) :
    getField (sanitize b) "name" = some (.str (escapeJS (trimJS s))) := by
  unfold sanitize
  rw [getField_sanitizeField_ne _ _ _ (by decide : ("name" : String) ≠ "description")]
  exact getField_sanitizeField_self b "name" s h

theorem getField_sanitize_desc (b : Obj) (s : String)
    (h : getField b "description" = some (.str s)) :
    getField (sanitize b) "description" = some (.str (escapeJS (trimJS s))) := by
  unfold sanitize
  refine getField_sanitizeField_self _ "description" s ?_
  rw [getField_sanitizeField_ne _ _ _ (by decide : ("description" : String) ≠ "name")]
  exact h

theorem keys_sanitizeField (b : Obj) (k : String) :
    (sanitizeField b k).map Prod.fst = b.map Prod.fst := by
  unfold sanitizeField
  rcases hg : getField b k with _ | v
  · rfl
  · cases v <;> first | rfl | exact keys_setField_of_mem b k _ _ hg

theorem keys_sanitize (b : Obj) : (sanitize b).map Prod.fst = b.map Prod.fst := by
  unfold sanitize
  rw [keys_sanitizeField, keys_sanitizeField]

theorem isNumId_iff (o : Obj) : isNumId o = true ↔ ∃ q : ℚ, getField o "id" = some (.num q) := by
  unfold isNumId
  rcases getField o "id" with _ | v
  · simp
  · cases v <;> simp

theorem qIds_cons_num (o : Obj) (rest : List Obj) (q : ℚ)
    (hg : getField o "id" = some (.num q)) : qIds (o :: rest) = q :: qIds rest := by
  simp [qIds, List.filterMap_cons, hg]

theorem qIds_append (s t : List Obj) : qIds (s ++ t) = qIds s ++ qIds t :=
  List.filterMap_append s t _

/-- With every stored id a JS number, the id the POST assigns is a number
strictly above every id in the store. -/
theorem newId_num (s : List Obj) (h : ∀ o ∈ s, isNumId o = true) :
    ∃ m : ℚ, newId s = .num m ∧ ∀ q ∈ qIds s, q < m := by
  cases s with
  | nil =>
    refine ⟨1, by simp [newId], ?_⟩
    intro q hq
    simp [qIds] at hq
  | cons o rest =>
    have hall : (o :: rest).all isNumId = true := List.all_eq_true.mpr h
    obtain ⟨q, hg⟩ := (isNumId_iff o).mp (h o (by simp))
    have hq : qIds (o :: rest) = q :: qIds rest := qIds_cons_num o rest q hg
    refine ⟨addOneJS ((qIds rest).foldl maxJS q), ?_, ?_⟩
    · unfold newId jsMaxIds
      rw [hq]
      simp [hall]
    · intro x hx
      rw [hq] at hx
      have hle := le_foldl_max q (qIds rest) x hx
      rw [addOneJS_eq]
      linarith

theorem getField_mkNewItem_id (s : List Obj) (b : Obj) (hb : getField b "id" = none) :
    getField (mkNewItem s b) "id" = some (newId s) := by
  have hsb : getField (sanitize b) "id" = none := by
    rw [getField_sanitize_other b "id" (by decide) (by decide)]
    exact hb
  unfold mkNewItem
  rw [getField_setField_ne _ _ _ _ (by decide : ("id" : String) ≠ "available"),
     getField_spreadInto_of_none _ _ _ hsb]
  simp [getField]

theorem getField_mkUpdated_id (pid : JValue) (b : Obj) (hb : getField b "id" = none) :
    getField (mkUpdated pid b) "id" = some pid := by
  have hsb : getField (sanitize b) "id" = none := by
    rw [getField_sanitize_other b "id" (by decide) (by decide)]
    exact hb
  unfold mkUpdated
  rw [getField_spreadInto_of_none _ _ _ hsb]
  simp [getField]

theorem goodStore_post (s : List Obj) (b : Obj) (hb : getField b "id" = none)
    (h : GoodStore s) : GoodStore (postMenu s b).2 := by
  unfold postMenu
  split
  · exact h
  · obtain ⟨hnum, hnd⟩ := h
    obtain ⟨m, hm, hlt⟩ := newId_num s hnum
    have hid : getField (mkNewItem s b) "id" = some (.num m) := by
      rw [getField_mkNewItem_id s b hb, hm]
    constructor
    · intro o ho
      rcases List.mem_append.mp ho with ho | ho
      · exact hnum o ho
      · have heq : o = mkNewItem s b := by simpa using ho
        subst heq
        exact (isNumId_iff _).mpr ⟨m, hid⟩
    · rw [qIds_append, qIds_cons_num _ _ _ hid]
      refine List.nodup_append.mpr ⟨hnd, by simp [qIds], ?_⟩
      intro x hx hx2
      have hxm : x = m := by simpa [qIds] using hx2
      subst hxm
      exact absurd (hlt x hx) (lt_irrefl x)

theorem goodStore_put (s : List Obj) (seg : String) (b : Obj) (hb : getField b "id" = none)
    (h : GoodStore s) : GoodStore (putMenu s seg b).2 := by
  unfold putMenu
  split
  · exact h
  · rcases hix : findIndexJS (fun i => jsEqO (getField i "id") (parseIntJS seg)) s with _ | ix
    · simp only [hix]
      exact h
    · simp only [hix]
      obtain ⟨o, ho, hpo⟩ := findIndexJS_eq_some _ _ _ hix
      obtain ⟨q, hq⟩ := (isNumId_iff o).mp (h.1 o (List.getElem?_mem ho))
      have hpid : parseIntJS seg = .num q := by
        rw [hq] at hpo
        exact jsEq_num_eq q _ (by simpa [jsEqO] using hpo)
      have hupd : getField (mkUpdated (parseIntJS seg) b) "id" = some (.num q) := by
        rw [getField_mkUpdated_id _ _ hb, hpid]
      constructor
      · intro o' ho'
        rcases List.mem_or_eq_of_mem_set ho' with h1 | h1
        · exact h.1 o' h1
        · subst h1
          exact (isNumId_iff _).mpr ⟨q, hupd⟩
      · have hqe : qIds (s.set ix (mkUpdated (parseIntJS seg) b)) = qIds s := by
          unfold qIds
          refine filterMap_set_same _ s ix o _ ho ?_
          rw [hupd, hq]
        rw [hqe]
        exact h.2

theorem goodStore_delete (s : List Obj) (seg : String) (h : GoodStore s) :
    GoodStore (deleteMenu s seg).2 := by
  unfold deleteMenu
  rcases hix : findIndexJS (fun i => jsEqO (getField i "id") (parseIntJS seg)) s with _ | ix
  · simp only [hix]
    exact h
  · simp only [hix]
    have hsub : (s.eraseIdx ix).Sublist s := List.eraseIdx_sublist s ix
    exact ⟨fun o ho => h.1 o (hsub.subset ho), h.2.sublist (List.Sublist.filterMap _ hsub)⟩

theorem goodStore_step (s : List Obj) (r : Req) (hr : reqNoId r = true)
    (h : GoodStore s) : GoodStore (step s r) := by
  cases r with
  | create b =>
      exact goodStore_post s b (by simpa [reqNoId, Option.isNone_iff_eq_none] using hr) h
  | update seg b =>
      exact goodStore_put s seg b (by simpa [reqNoId, Option.isNone_iff_eq_none] using hr) h
  | remove seg => exact goodStore_delete s seg h

theorem goodStore_seed : GoodStore seedItems := by
  constructor
  · decide
  · decide

theorem goodStore_foldl (reqs : List Req) :
    ∀ s, (∀ r ∈ reqs, reqNoId r = true) → GoodStore s → GoodStore (reqs.foldl step s) := by
  induction reqs with
  | nil =>
    intro s _ hs
    exact hs
  | cons r rest ih =>
    intro s h hs
    exact ih (step s r) (fun r' hr' => h r' (by simp [hr']))
      (goodStore_step s r (h r (by simp)) hs)

end V2

/-! ### Shared helper lemmas about validation membership and lookups -/

theorem jsEqO_nan (x : Option JValue) : jsEqO x JValue.nan = false := by
  cases x with
  | none => rfl
  | some w => cases w <;> rfl

namespace V2

theorem mem_errIf (e e' : FieldError) (c : Bool) :
    e ∈ errIf c e' ↔ (c = false ∧ e = e') := by
  cases c <;> simp [errIf]

theorem nameLen_mem_validate (b : Obj) :
    (⟨"name", "Name must be at least 3 characters"⟩ : FieldError) ∈ validate b ↔
      nameLenOK b = false := by
  simp [validate, mem_errIf, List.mem_append]

theorem descLen_mem_validate (b : Obj) :
    (⟨"description", "Description must be at least 10 characters"⟩ : FieldError) ∈ validate b ↔
      descLenOK b = false := by
  simp [validate, mem_errIf, List.mem_append]

theorem price_mem_validate (b : Obj) :
    (⟨"price", "Price must be a positive number"⟩ : FieldError) ∈ validate b ↔
      priceOK b = false := by
  simp [validate, mem_errIf, List.mem_append]

theorem cat_mem_validate (b : Obj) :
    (⟨"category", "Invalid category"⟩ : FieldError) ∈ validate b ↔ catOK b = false := by
  simp [validate, mem_errIf, List.mem_append]

theorem ingr_mem_validate (b : Obj) :
    (⟨"ingredients", "At least one ingredient is required"⟩ : FieldError) ∈ validate b ↔
      ingrOK b = false := by
  simp [validate, mem_errIf, List.mem_append]

theorem avail_mem_validate (b : Obj) :
    (⟨"available", "Available must be true or false"⟩ : FieldError) ∈ validate b ↔
      availOK b = false := by
  simp [validate, mem_errIf, List.mem_append]

/-- When no stored item's id matches the parsed segment, GET and DELETE
answer 404 without touching the store, and so does PUT once its payload
passes validation. -/
theorem notFound_of_absent (s : List Obj) (seg : String) (bv : Obj)
    (habs : ∀ o ∈ s, jsEqO (getField o "id") (parseIntJS seg) = false)
    (hv : validate bv = []) :
    getMenuById s seg = ⟨404, notFoundBody⟩ ∧
    deleteMenu s seg = (⟨404, notFoundBody⟩, s) ∧
    putMenu s seg bv = (⟨404, notFoundBody⟩, s) := by
  have hfind : (s.find? fun i => jsEqO (getField i "id") (parseIntJS seg)) = none :=
    find?_eq_none_of _ s habs
  have hidx : findIndexJS (fun i => jsEqO (getField i "id") (parseIntJS seg)) s = none :=
    findIndexJS_eq_none _ s habs
  refine ⟨?_, ?_, ?_⟩
  · simp [getMenuById, hfind]
  · simp [deleteMenu, hidx]
  · simp [putMenu, hv, hidx]

end V2

/-! ### The claims -/

/-- Claim C1 (evaluation at the failing input).  The claim says every
create assigns `max id + 1` (or 1 on an empty store).  Variant 2's POST
does so, but variant 1's POST assigns `menuItems.length + 1`: after
deleting id 1 from the variant-1 seed store the remaining ids are
2, 3, 4, 5, and a valid create is assigned id `4 + 1 = 5` — an id already
present — instead of `max + 1 = 6`.  This theorem evaluates variant 1 at
that input: the create succeeds with status 201, the assigned id is 5,
5 is already among the stored ids, and the store ends up with a duplicate
id. -/
theorem claim_C1_v1_length_plus_one :
    (V1.deleteMenu V1.seedItems "1").1.status = 200 ∧
    V2.qIds (V1.deleteMenu V1.seedItems "1").2 = [2, 3, 4, 5] ∧
    (V1.postMenu (V1.deleteMenu V1.seedItems "1").2 wrapBody).1.status = 201 ∧
    jGet (V1.postMenu (V1.deleteMenu V1.seedItems "1").2 wrapBody).1.body "id" =
      some (.num 5) ∧
    V2.qIds (V1.postMenu (V1.deleteMenu V1.seedItems "1").2 wrapBody).2 =
      [2, 3, 4, 5, 5] ∧
    ¬ (V2.qIds (V1.postMenu (V1.deleteMenu V1.seedItems "1").2 wrapBody).2).Nodup :=
  ⟨rfl, by decide, rfl, rfl, by decide, by decide⟩

/-- Claim C2 (counterexample).  The claim asserts pairwise-distinct ids in
every state reachable from the seed by create/update/delete.  One
variant-2 update refutes it: PUT `/api/menu/2` with a valid payload whose
body smuggles in `id: 1` stores `{id, ...req.body}` in which the body's
`id` overwrites the path id, leaving the store with ids
1, 1, 3, 4, 5, 6, 7, 8. -/
theorem claim_C2_counterexample :
    V2.qIds (V2.run [V2.Req.update "2" sneakyBody]) = [1, 1, 3, 4, 5, 6, 7, 8] ∧
    ¬ (V2.qIds (V2.run [V2.Req.update "2" sneakyBody])).Nodup :=
  ⟨by decide, by decide⟩

/-- Claim C2 (amended): in every store state reachable from the variant-2
seed by variant-2 create, update, and delete requests whose bodies contain
no `id` property, every stored item carries a numeric id and those ids are
pairwise distinct. -/
theorem claim_C2 (reqs : List V2.Req) (h : ∀ r ∈ reqs, V2.reqNoId r = true) :
    (∀ o ∈ V2.run reqs, V2.isNumId o = true) ∧ (V2.qIds (V2.run reqs)).Nodup :=
  V2.goodStore_foldl reqs V2.seedItems h V2.goodStore_seed

theorem claim_C2_witness :
    (∀ r ∈ [V2.Req.create wrapBody, V2.Req.remove "3"], V2.reqNoId r = true) ∧
    (V2.qIds (V2.run [V2.Req.create wrapBody, V2.Req.remove "3"])).Nodup :=
  ⟨by decide, (claim_C2 [V2.Req.create wrapBody, V2.Req.remove "3"] (by decide)).2⟩

/-- Claim C3 (counterexample).  The claim asserts the 400 body is
`{status: "Validation Error", errors: [{field, message}, ...]}`.
Variant 1's handler answers 400 with `{errors: errors.array()}`: no
`status` property at all, and raw error objects
(`{type, value, msg, path, location}`) instead of `{field, message}`
entries, as this evaluation at a payload whose only violation is
`price: -5` shows. -/
theorem claim_C3_counterexample :
    (V1.postMenu V1.seedItems priceBadBody).1.status = 400 ∧
    jGet (V1.postMenu V1.seedItems priceBadBody).1.body "status" = none ∧
    (V1.postMenu V1.seedItems priceBadBody).1.body =
      V1.valErrBody [⟨"price", "Price must be greater than 0", some (.num (-5))⟩] :=
  ⟨rfl, rfl, rfl⟩

/-- Claim C3 (amended): for variant-2 create and update requests whose
payload violates at least one rule, the response is 400 with body
`{status: "Validation Error", errors: [...]}` whose `errors` array holds
the `{field, message}` entries of all violated rules — every rule is
evaluated, and each custom-message rule contributes its entry exactly when
its check fails.  (Variant 1 responds 400 with a different body shape; see
the counterexample.) -/
theorem claim_C3 (s : List Obj) (seg : String) (b : Obj) (h : V2.validate b ≠ []) :
    (V2.postMenu s b).1 = ⟨400, V2.valErrBody (V2.validate b)⟩ ∧
    (V2.putMenu s seg b).1 = ⟨400, V2.valErrBody (V2.validate b)⟩ ∧
    jGet (V2.valErrBody (V2.validate b)) "status" = some (.str "Validation Error") ∧
    jGet (V2.valErrBody (V2.validate b)) "errors" =
      some (.arr ((V2.validate b).map V2.fieldErrJson)) ∧
    ((⟨"name", "Name must be at least 3 characters"⟩ : FieldError) ∈ V2.validate b ↔
      V2.nameLenOK b = false) ∧
    ((⟨"description", "Description must be at least 10 characters"⟩ : FieldError) ∈ V2.validate b ↔
      V2.descLenOK b = false) ∧
    ((⟨"price", "Price must be a positive number"⟩ : FieldError) ∈ V2.validate b ↔
      V2.priceOK b = false) ∧
    ((⟨"category", "Invalid category"⟩ : FieldError) ∈ V2.validate b ↔
      V2.catOK b = false) ∧
    ((⟨"ingredients", "At least one ingredient is required"⟩ : FieldError) ∈ V2.validate b ↔
      V2.ingrOK b = false) ∧
    ((⟨"available", "Available must be true or false"⟩ : FieldError) ∈ V2.validate b ↔
      V2.availOK b = false) := by
  refine ⟨?_, ?_, rfl, rfl, V2.nameLen_mem_validate b, V2.descLen_mem_validate b,
    V2.price_mem_validate b, V2.cat_mem_validate b, V2.ingr_mem_validate b,
    V2.avail_mem_validate b⟩
  · simp [V2.postMenu, h]
  · simp [V2.putMenu, h]

theorem claim_C3_witness :
    V2.validate priceBadBody ≠ [] ∧
    (V2.postMenu V2.seedItems priceBadBody).1 =
      ⟨400, V2.valErrBody (V2.validate priceBadBody)⟩ ∧
    ((⟨"price", "Price must be a positive number"⟩ : FieldError) ∈ V2.validate priceBadBody ↔
      V2.priceOK priceBadBody = false) :=
  ⟨by decide,
   (claim_C3 V2.seedItems "1" priceBadBody (by decide)).1,
   (claim_C3 V2.seedItems "1" priceBadBody (by decide)).2.2.2.2.2.2.1⟩

/-- Claim C4 (evaluation at the failing input).  The claim says an update
fully replaces the record with `available` defaulted to true when the
payload omits it.  Variant 2's PUT stores `{id, ...req.body}` with no
`available` default: updating item 1 with a valid payload that omits
`available` leaves the stored record (and the 200 response) without any
`available` property, where the claim requires `available: true`.
(Variant 1's PUT does apply the default, and variant 2's own POST does
too, which marks the omission as the slip.) -/
theorem claim_C4_put_drops_available_default :
    (V2.putMenu V2.seedItems "1" wrapBody).1.status = 200 ∧
    jGet (V2.putMenu V2.seedItems "1" wrapBody).1.body "id" = some (.num 1) ∧
    jGet (V2.putMenu V2.seedItems "1" wrapBody).1.body "available" = none ∧
    ((V2.putMenu V2.seedItems "1" wrapBody).2[0]?).map (fun o => getField o "available") =
      some none :=
  ⟨rfl, rfl, rfl, rfl⟩

/-- Claim C5: for every id absent from the store (no stored item's id is
strictly equal to the parsed path segment), variant-2 GET, PUT (with a
payload that passes validation), and DELETE answer 404 with
`{"error": "Menu item not found"}` and leave the store unchanged, while a
PUT whose payload fails validation answers 400 even though the id is
absent — validation runs before the lookup. -/
theorem claim_C5 (s : List Obj) (seg : String) (bv bi : Obj)
    (habs : ∀ o ∈ s, jsEqO (getField o "id") (parseIntJS seg) = false)
    (hv : V2.validate bv = []) (hi : V2.validate bi ≠ []) :
    V2.getMenuById s seg = ⟨404, notFoundBody⟩ ∧
    V2.deleteMenu s seg = (⟨404, notFoundBody⟩, s) ∧
    V2.putMenu s seg bv = (⟨404, notFoundBody⟩, s) ∧
    (V2.putMenu s seg bi).1 = ⟨400, V2.valErrBody (V2.validate bi)⟩ := by
  obtain ⟨h1, h2, h3⟩ := V2.notFound_of_absent s seg bv habs hv
  refine ⟨h1, h2, h3, ?_⟩
  simp [V2.putMenu, hi]

theorem claim_C5_witness :
    (∀ o ∈ V2.seedItems, jsEqO (getField o "id") (parseIntJS "99") = false) ∧
    V2.validate wrapBody = [] ∧ V2.validate emptyBody ≠ [] ∧
    V2.getMenuById V2.seedItems "99" = ⟨404, notFoundBody⟩ ∧
    V2.putMenu V2.seedItems "99" wrapBody = (⟨404, notFoundBody⟩, V2.seedItems) ∧
    (V2.putMenu V2.seedItems "99" emptyBody).1 =
      ⟨400, V2.valErrBody (V2.validate emptyBody)⟩ := by
  have H := claim_C5 V2.seedItems "99" wrapBody emptyBody (by decide) (by decide) (by decide)
  exact ⟨by decide, by decide, by decide, H.1, H.2.2.1, H.2.2.2⟩

/-- Claim C6: a variant-2 create or update whose payload fails validation
answers 400 and leaves the store exactly as it was (the 400 is produced by
the validation middleware before the handler, so no store operation
runs). -/
theorem claim_C6 (s : List Obj) (seg : String) (b : Obj) (h : V2.validate b ≠ []) :
    (V2.postMenu s b).2 = s ∧ (V2.postMenu s b).1.status = 400 ∧
    (V2.putMenu s seg b).2 = s ∧ (V2.putMenu s seg b).1.status = 400 := by
  refine ⟨?_, ?_, ?_, ?_⟩ <;> simp [V2.postMenu, V2.putMenu, h]

theorem claim_C6_witness :
    V2.validate emptyBody ≠ [] ∧
    (V2.postMenu V2.seedItems emptyBody).2 = V2.seedItems ∧
    (V2.postMenu V2.seedItems emptyBody).1.status = 400 ∧
    (V2.putMenu V2.seedItems "3" emptyBody).2 = V2.seedItems :=
  ⟨by decide,
   (claim_C6 V2.seedItems "3" emptyBody (by decide)).1,
   (claim_C6 V2.seedItems "3" emptyBody (by decide)).2.1,
   (claim_C6 V2.seedItems "3" emptyBody (by decide)).2.2.1⟩

/-- Claim C7 (counterexample).  The claim says create-then-GET returns an
item whose fields equal the payload's.  It fails on variant 2 for the
valid payload `dupIdBody`: its `id: 1` property overwrites the computed id
(so the created item gets id 1, duplicating seed item 1), and the
subsequent GET of the returned id finds the first match — the original
Classic Burger, not the created item; moreover the created item's name is
the trimmed form of the payload's padded name in any case. -/
theorem claim_C7_counterexample :
    V2.validate dupIdBody = [] ∧
    jGet (V2.postMenu V2.seedItems dupIdBody).1.body "id" = some (.num 1) ∧
    (V2.getMenuById (V2.postMenu V2.seedItems dupIdBody).2 "1").status = 200 ∧
    jGet (V2.getMenuById (V2.postMenu V2.seedItems dupIdBody).2 "1").body "name" =
      some (.str "Classic Burger") ∧
    getField dupIdBody "name" = some (.str " Padded Wrap ") :=
  ⟨rfl, rfl, rfl, rfl, rfl⟩

/-- Claim C7 (amended): for a valid create payload `P` that carries no
`id` property, whose `name` and `description` are unchanged by trimming
and escaping, and whose keys are distinct, if the computed fresh id
matches no stored item, then creating from `P` and GET-ing a segment that
parses to that id returns exactly the created item: its id is the
computed one, every other non-`available` field is `P`'s, and `available`
is `P`'s value or defaults to true when omitted. -/
theorem claim_C7 (s : List Obj) (P : Obj) (seg : String)
    (hval : V2.validate P = [])
    (hid : getField P "id" = none)
    (hsan : V2.sanitize P = P)
    (hkeys : (P.map Prod.fst).Nodup)
    (hfresh : ∀ o ∈ s, jsEqO (getField o "id") (V2.newId s) = false)
    (hnum : ∃ m : ℚ, V2.newId s = .num m)
    (hseg : parseIntJS seg = V2.newId s) :
    V2.postMenu s P = (⟨201, .obj (V2.mkNewItem s P)⟩, s ++ [V2.mkNewItem s P]) ∧
    V2.getMenuById (V2.postMenu s P).2 seg = ⟨200, .obj (V2.mkNewItem s P)⟩ ∧
    getField (V2.mkNewItem s P) "id" = some (V2.newId s) ∧
    (∀ k v, k ≠ "id" → k ≠ "available" → getField P k = some v →
      getField (V2.mkNewItem s P) k = some v) ∧
    (getField P "available" = none →
      getField (V2.mkNewItem s P) "available" = some (.bool true)) ∧
    (∀ v, getField P "available" = some v →
      getField (V2.mkNewItem s P) "available" = some v) := by
  have hpost : V2.postMenu s P = (⟨201, .obj (V2.mkNewItem s P)⟩, s ++ [V2.mkNewItem s P]) := by
    simp [V2.postMenu, hval]
  have hmkid : getField (V2.mkNewItem s P) "id" = some (V2.newId s) :=
    V2.getField_mkNewItem_id s P hid
  obtain ⟨m, hm⟩ := hnum
  have hpmk : jsEqO (getField (V2.mkNewItem s P) "id") (V2.newId s) = true := by
    rw [hmkid, hm]
    simp [jsEqO, jsEq]
  refine ⟨hpost, ?_, hmkid, ?_, ?_, ?_⟩
  · rw [hpost]
    show V2.getMenuById (s ++ [V2.mkNewItem s P]) seg = _
    unfold V2.getMenuById
    rw [hseg, List.find?_append, find?_eq_none_of _ s hfresh]
    simp [List.find?, hpmk]
  · intro k v hk1 hk2 hkv
    unfold V2.mkNewItem
    rw [hsan, getField_setField_ne _ _ _ _ hk2]
    exact getField_spreadInto_of_some P _ k v hkeys hkv
  · intro hnone
    unfold V2.mkNewItem
    rw [hsan, hnone]
    exact getField_setField_self _ "available" _
  · intro v hv
    unfold V2.mkNewItem
    rw [hsan, hv]
    exact getField_setField_self _ "available" _

theorem claim_C7_witness :
    V2.validate wrapBody = [] ∧ getField wrapBody "id" = none ∧
    V2.sanitize wrapBody = wrapBody ∧
    parseIntJS "9" = V2.newId V2.seedItems ∧
    V2.getMenuById (V2.postMenu V2.seedItems wrapBody).2 "9" =
      ⟨200, .obj (V2.mkNewItem V2.seedItems wrapBody)⟩ ∧
    getField (V2.mkNewItem V2.seedItems wrapBody) "available" = some (.bool true) := by
  have H := claim_C7 V2.seedItems wrapBody "9" (by decide) rfl rfl (by decide)
    (by decide) ⟨9, rfl⟩ rfl
  exact ⟨by decide, rfl, rfl, rfl, H.2.1, H.2.2.2.2.1 rfl⟩

/-- Claim C8: a path segment that `parseInt` turns into NaN matches no
stored item, since `===` against NaN is always false, so variant-2 GET and
DELETE answer the standard 404 not-found response (and so does PUT once
its payload passes validation — an invalid payload still draws the 400 of
claim C5, as validation runs first). -/
theorem claim_C8 (s : List Obj) (seg : String) (bv : Obj)
    (hseg : parseIntJS seg = JValue.nan) (hv : V2.validate bv = []) :
    V2.getMenuById s seg = ⟨404, notFoundBody⟩ ∧
    V2.deleteMenu s seg = (⟨404, notFoundBody⟩, s) ∧
    V2.putMenu s seg bv = (⟨404, notFoundBody⟩, s) := by
  have habs : ∀ o ∈ s, jsEqO (getField o "id") (parseIntJS seg) = false := by
    intro o ho
    rw [hseg]
    exact jsEqO_nan _
  exact V2.notFound_of_absent s seg bv habs hv

theorem claim_C8_witness :
    parseIntJS "abc" = JValue.nan ∧ V2.validate wrapBody = [] ∧
    V2.getMenuById V2.seedItems "abc" = ⟨404, notFoundBody⟩ ∧
    V2.deleteMenu V2.seedItems "abc" = (⟨404, notFoundBody⟩, V2.seedItems) ∧
    V2.putMenu V2.seedItems "abc" wrapBody = (⟨404, notFoundBody⟩, V2.seedItems) := by
  have H := claim_C8 V2.seedItems "abc" wrapBody rfl (by decide)
  exact ⟨rfl, by decide, H.1, H.2.1, H.2.2⟩

/-- Claim C9 (counterexample).  The claim says name/description are
trimmed before their minimum-length checks.  Variant 1 has no sanitizers:
the payload `padBody`, whose name `" ab "` has raw length 4 but trimmed
length 2, passes variant-1 validation with no violations and is created
with status 201 — under the claim the name length rule (minimum 3 on the
trimmed text) would have to fail. -/
theorem claim_C9_counterexample :
    (V1.postMenu V1.seedItems padBody).1.status = 201 ∧
    V1.validate padBody = [] ∧
    getField padBody "name" = some (.str " ab ") ∧
    (trimJS " ab ").length = 2 :=
  ⟨rfl, rfl, rfl, rfl⟩

/-- Claim C9 (amended): in variant 2, the minimum-length rules for `name`
and `description` are decided on the trimmed text (escaping plays no part
in them, as it runs after the check), and on the success path the stored
values are the escape of the trimmed text.  Variant 1 applies neither trim
nor escape; see the counterexample. -/
theorem claim_C9 (b : Obj) (s : List Obj) (ns ds : String)
    (hkeys : (b.map Prod.fst).Nodup)
    (hn : getField b "name" = some (.str ns))
    (hd : getField b "description" = some (.str ds)) :
    ((⟨"name", "Name must be at least 3 characters"⟩ : FieldError) ∈ V2.validate b ↔
      (trimJS ns).length < 3) ∧
    ((⟨"description", "Description must be at least 10 characters"⟩ : FieldError) ∈ V2.validate b ↔
      (trimJS ds).length < 10) ∧
    (V2.validate b = [] →
      getField (V2.mkNewItem s b) "name" = some (.str (escapeJS (trimJS ns))) ∧
      getField (V2.mkNewItem s b) "description" = some (.str (escapeJS (trimJS ds)))) := by
  refine ⟨?_, ?_, ?_⟩
  · rw [V2.nameLen_mem_validate]
    simp [V2.nameLenOK, hn, trimSanV, strLen, Nat.not_le]
  · rw [V2.descLen_mem_validate]
    simp [V2.descLenOK, hd, trimSanV, strLen, Nat.not_le]
  · intro hval
    have hnd : ((V2.sanitize b).map Prod.fst).Nodup := by
      rw [V2.keys_sanitize]
      exact hkeys
    constructor
    · unfold V2.mkNewItem
      rw [getField_setField_ne _ _ _ _ (by decide : ("name" : String) ≠ "available")]
      exact getField_spreadInto_of_some _ _ _ _ hnd (V2.getField_sanitize_name b ns hn)
    · unfold V2.mkNewItem
      rw [getField_setField_ne _ _ _ _ (by decide : ("description" : String) ≠ "available")]
      exact getField_spreadInto_of_some _ _ _ _ hnd (V2.getField_sanitize_desc b ds hd)

theorem claim_C9_witness :
    (wrapBody.map Prod.fst).Nodup ∧
    getField wrapBody "name" = some (.str "Veggie Wrap") ∧
    ((⟨"name", "Name must be at least 3 characters"⟩ : FieldError) ∈ V2.validate wrapBody ↔
      (trimJS "Veggie Wrap").length < 3) := by
  have H := claim_C9 wrapBody V2.seedItems "Veggie Wrap"
    "Fresh veggies wrapped in a tortilla" (by decide) rfl rfl
  exact ⟨by decide, rfl, H.1⟩

/-- Claim C10: variant-2 create and update copy properties beyond the
seven schema fields from a valid body into the stored item (and hence
into the success response, whose body is that item), and an `id` property
in the body overwrites the id the route computed — on update, the
path-derived id. -/
theorem claim_C10 (s : List Obj) (seg : String) (b : Obj) (k : String) (v w : JValue) (ix : ℕ)
    (hval : V2.validate b = [])
    (hkeys : (b.map Prod.fst).Nodup)
    (hk : k ∉ (["id", "name", "description", "price", "category", "ingredients",
      "available"] : List String))
    (hkb : getField b k = some v)
    (hbid : getField b "id" = some w)
    (hix : findIndexJS (fun i => jsEqO (getField i "id") (parseIntJS seg)) s = some ix) :
    (V2.postMenu s b).1 = ⟨201, .obj (V2.mkNewItem s b)⟩ ∧
    (V2.postMenu s b).2 = s ++ [V2.mkNewItem s b] ∧
    getField (V2.mkNewItem s b) k = some v ∧
    getField (V2.mkNewItem s b) "id" = some w ∧
    (V2.putMenu s seg b).1 = ⟨200, .obj (V2.mkUpdated (parseIntJS seg) b)⟩ ∧
    (V2.putMenu s seg b).2 = s.set ix (V2.mkUpdated (parseIntJS seg) b) ∧
    getField (V2.mkUpdated (parseIntJS seg) b) k = some v ∧
    getField (V2.mkUpdated (parseIntJS seg) b) "id" = some w := by
  simp only [List.mem_cons, List.not_mem_nil, or_false, not_or] at hk
  obtain ⟨hk1, hk2, hk3, hk4, hk5, hk6, hk7⟩ := hk
  have hnd : ((V2.sanitize b).map Prod.fst).Nodup := by
    rw [V2.keys_sanitize]
    exact hkeys
  have hsv : getField (V2.sanitize b) k = some v := by
    rw [V2.getField_sanitize_other b k hk2 hk3]
    exact hkb
  have hsid : getField (V2.sanitize b) "id" = some w := by
    rw [V2.getField_sanitize_other b "id" (by decide) (by decide)]
    exact hbid
  refine ⟨?_, ?_, ?_, ?_, ?_, ?_, ?_, ?_⟩
  · simp [V2.postMenu, hval]
  · simp [V2.postMenu, hval]
  · unfold V2.mkNewItem
    rw [getField_setField_ne _ _ _ _ hk7]
    exact getField_spreadInto_of_some _ _ _ _ hnd hsv
  · unfold V2.mkNewItem
    rw [getField_setField_ne _ _ _ _ (by decide : ("id" : String) ≠ "available")]
    exact getField_spreadInto_of_some _ _ _ _ hnd hsid
  · simp [V2.putMenu, hval, hix]
  · simp [V2.putMenu, hval, hix]
  · unfold V2.mkUpdated
    exact getField_spreadInto_of_some _ _ _ _ hnd hsv
  · unfold V2.mkUpdated
    exact getField_spreadInto_of_some _ _ _ _ hnd hsid

theorem claim_C10_witness :
    V2.validate extraBody = [] ∧
    getField extraBody "spicy" = some (.bool true) ∧
    getField extraBody "id" = some (.num 999) ∧
    findIndexJS (fun i => jsEqO (getField i "id") (parseIntJS "2")) V2.seedItems = some 1 ∧
    getField (V2.mkNewItem V2.seedItems extraBody) "spicy" = some (.bool true) ∧
    getField (V2.mkUpdated (parseIntJS "2") extraBody) "id" = some (.num 999) ∧
    (V2.putMenu V2.seedItems "2" extraBody).2 =
      V2.seedItems.set 1 (V2.mkUpdated (parseIntJS "2") extraBody) := by
  have H := claim_C10 V2.seedItems "2" extraBody "spicy" (.bool true) (.num 999) 1
    (by decide) (by decide) (by decide) rfl rfl (by decide)
  exact ⟨by decide, rfl, rfl, by decide, H.2.2.1, H.2.2.2.2.2.2.2, H.2.2.2.2.2.1⟩
